import Mathlib

/-!
Verification of the decoy generation and scoring engine of the
QuantumHoneypot repository (file `ai/app.py`), against its natural-language
specification.

The Python code is shallowly embedded below:
* strings are `List Char`;
* Python floats are modelled as exact rationals `ℚ` (all numeric facts
  proved about concrete inputs in this file involve values that are exactly
  representable in binary floating point, so the rational model agrees with
  the float computation at every evaluated input);
* the ambient numpy random source is made explicit: each random draw of the
  code becomes an input of the embedded function, and theorems quantify over
  all draws (or exhibit a concrete draw);
* a raised Python exception is modelled as `Option.none`.

Character predicates (`isAlpha`, `isDigit`, `isUpper`, `toLower`) use Lean's
ASCII semantics; the Python originals are Unicode-wide, but every string a
theorem below touches is ASCII, where the two agree.
-/

set_option maxRecDepth 100000

namespace PQCD

/-- Python `int(q)` on a real value: truncation toward zero. -/
def pyInt (q : ℚ) : ℤ :=
  if 0 ≤ q then ⌊q⌋ else ⌈q⌉

/-- Python `round(q)` (banker's rounding: ties go to the even integer). -/
def pyRoundHalfEven (q : ℚ) : ℤ :=
  if q - ⌊q⌋ < 1/2 then ⌊q⌋
  else if (1:ℚ)/2 < q - ⌊q⌋ then ⌊q⌋ + 1
  else if Even ⌊q⌋ then ⌊q⌋ else ⌊q⌋ + 1

/-- Python `round(q, 2)`: round to two decimal places. -/
def pyRound2 (q : ℚ) : ℚ :=
  (pyRoundHalfEven (q * 100) : ℚ) / 100

/-- The fixed homoglyph table of `character_substitution_decoy`
(`app.py`, lines 121-131). -/
def substitutions (c : Char) : Option (List Char) :=
  if c = 'a' then some ['@', '4', 'á']
  else if c = 'b' then some ['6', '8', 'ß']
  else if c = 'e' then some ['3', 'é', 'ë']
  else if c = 'i' then some ['1', '!', 'í']
  else if c = 'l' then some ['1', '|', 'ł']
  else if c = 'o' then some ['0', 'ø', 'ó']
  else if c = 's' then some ['5', '$', 'š']
  else if c = 't' then some ['7', '+', 'ţ']
  else if c = 'z' then some ['2', 'ž', 'ż']
  else none

/-- The fixed punctuation fallback set of `character_substitution_decoy`
(`app.py`, line 151). -/
def special_chars : List Char :=
  ['!', '@', '#', '$', '%', '^', '&', '*', '-', '_', '+', '=']

/-- The ten decimal digit characters, `[str(d) for d in range(10)]`. -/
def digitChars : List Char :=
  ['0', '1', '2', '3', '4', '5', '6', '7', '8', '9']

/-- One iteration of the substitution loop of `character_substitution_decoy`
(`app.py`, lines 134-152): the replacement character for the target character
`c`, given the random draw `pick`.  Each numpy draw
`np.random.randint(0, n)` is uniform over `[0, n)`; it is modelled as
`pick % n`, so every index is reachable and theorems quantifying over `pick`
cover every outcome. -/
def substituteChar (c : Char) (pick : ℕ) : Char :=
  match substitutions c.toLower with
  | some options => options.getD (pick % options.length) c
  | none =>
    if c.isAlpha then
      if c.isUpper then Char.ofNat (65 + pick % 26)
      else Char.ofNat (97 + pick % 26)
    else if c.isDigit then
      let options := digitChars.filter (fun d => d ≠ c)
      options.getD (pick % options.length) c
    else special_chars.getD (pick % special_chars.length) c

/-- The number of positions `character_substitution_decoy` modifies
(`app.py`, lines 114-115):
`num_to_modify = max(1, min(int((1.0 - similarity) * len(target)), len(target) - 1))`.
Python `int` truncates. -/
def numToModify (len : ℕ) (similarity : ℚ) : ℤ :=
  max 1 (min (pyInt ((1 - similarity) * len)) ((len : ℤ) - 1))

/-- The explicit random source consumed by `character_substitution_decoy`:
the distinct positions returned by
`np.random.choice(len(target), size=num_to_modify, replace=False)` and one
integer draw per position for the substitution choice. -/
structure CSRand where
  positions : List ℕ
  picks : List ℕ
deriving DecidableEq

/-- A random source that `np.random.choice(len, size=num, replace=False)`
can actually produce for a string of length `len`: exactly
`num_to_modify` pairwise-distinct positions, all within bounds, with one
substitution draw per position. -/
def validCSRand (len : ℕ) (similarity : ℚ) (r : CSRand) : Prop :=
  r.positions.length = (numToModify len similarity).toNat ∧
  r.positions.Nodup ∧
  (∀ p ∈ r.positions, p < len) ∧
  r.picks.length = r.positions.length

/-- The substitution loop of `character_substitution_decoy` (`app.py`,
lines 134-152): starting from `chars = list(target)`, write the
substituted character at each chosen position.  The loop reads the
original `target[pos]`, never the partially modified list, exactly as the
source does. -/
def applySubs (target : List Char) (ps : List (ℕ × ℕ)) : List Char :=
  ps.foldl
    (fun chars pr => chars.set pr.1 (substituteChar (target.getD pr.1 ' ') pr.2))
    target

/-- Embedding of `character_substitution_decoy(target, similarity)`
(`app.py`, lines 109-154).  `np.random.choice` raises `ValueError` when
asked for a sample larger than the population (in particular on an empty
target, where `num_to_modify` is still 1); a raised exception is `none`. -/
def character_substitution_decoy (target : List Char) (similarity : ℚ)
    (r : CSRand) : Option (List Char) :=
  if target.length < (numToModify target.length similarity).toNat then none
  else some (applySubs target (r.positions.zip r.picks))

/-- The modification count as the specification states it, with `round`
in place of the code's `int` truncation ("computes
numToModify = clamp(round((1-similarityTarget) * len(s)), 1, len(s)-1)").
Stated from the spec's words for comparison with `numToModify`. -/
def specNumToModify (len : ℕ) (similarityTarget : ℚ) : ℤ :=
  max 1 (min (pyRoundHalfEven ((1 - similarityTarget) * len)) ((len : ℤ) - 1))

/-- A word character of Python's regex `\w` class, restricted to ASCII. -/
def isWordChar (c : Char) : Bool :=
  c.isAlphanum || c == '_'

/-- Applies `f` to each maximal run of word characters of the string and
leaves the characters in between unchanged.  This is how `re.sub` with a
pattern matching one whole `\w+`-run per match traverses a string.  The
fuel argument (always called with fuel = length of the list) only serves to
make the recursion structural; each step consumes at least one character,
so the fuel never runs out. -/
def mapWordRunsAux (f : List Char → List Char) : ℕ → List Char → List Char
  | 0, _ => []
  | _, [] => []
  | fuel+1, c :: rest =>
    if isWordChar c then
      f (c :: rest.takeWhile isWordChar) ++
        mapWordRunsAux f fuel (rest.dropWhile isWordChar)
    else c :: mapWordRunsAux f fuel rest

def mapWordRuns (f : List Char → List Char) (s : List Char) : List Char :=
  mapWordRunsAux f s.length s

/-- The index of the last digit character of a run, if any. -/
def lastDigitIdx (run : List Char) : Option ℕ :=
  ((List.range run.length).filter (fun i => (run.getD i ' ').isDigit)).max?

/-- Embedding of `re.sub(r'(\w+)(\d+)', r'\1SEP\2', _)` on one maximal word
run: with backtracking, `\w+` is greedy, so `\2` captures exactly the last
digit of the run, provided at least one word character precedes it (`\1`
needs one); the run is unchanged otherwise, and at most one replacement
happens per run (no digits remain to the right of the match). -/
def sepBeforeTrailingDigit (sep : List Char) (run : List Char) : List Char :=
  match lastDigitIdx run with
  | some m => if 1 ≤ m then run.take m ++ sep ++ run.drop m else run
  | none => run

/-- The pattern table of `structural_variation_decoy` (`app.py`, lines
159-176), as the result of `re.sub(pattern, replacement, target)`.
Index 7 is `re.sub(r'(\w+)', r'\1\d', target)`: `\d` is an invalid escape
in a replacement template, so `re.sub` raises `re.error` (modelled as
`none`).  The four plain `(\w+)` rules append or prepend their fixed text
to every maximal word run. -/
def applyPattern (idx : ℕ) (target : List Char) : Option (List Char) :=
  match idx with
  | 0 => some (mapWordRuns (sepBeforeTrailingDigit ['-']) target)
  | 1 => some (mapWordRuns (sepBeforeTrailingDigit ['_']) target)
  | 2 => some (mapWordRuns (fun run => run ++ ['-', 'p', 'r', 'i', 'm', 'e']) target)
  | 3 => some (mapWordRuns (fun run => run ++ ['v', '2']) target)
  | 4 => some (mapWordRuns (fun run => ['l', 'i', 'g', 'h', 't'] ++ run) target)
  | 5 => some (mapWordRuns (fun run => ['f', 'i', 'r', 'e'] ++ run) target)
  | 6 => some (mapWordRuns (sepBeforeTrailingDigit ['-']) target)
  | _ => none

/-- Embedding of `structural_variation_decoy(target, similarity)`
(`app.py`, lines 156-189).  `patternIdx` is the draw of
`np.random.randint(0, len(patterns))` (taken modulo 8 so every pattern is
reachable); `r` is the random source of the `character_substitution_decoy`
fallback used when the chosen pattern leaves the target unchanged. -/
def structural_variation_decoy (target : List Char) (similarity : ℚ)
    (patternIdx : ℕ) (r : CSRand) : Option (List Char) :=
  (applyPattern (patternIdx % 8) target).bind (fun result =>
    if result = target then character_substitution_decoy target similarity r
    else some result)

/-- The explicit random source consumed by one call of `generate_decoy`:
the draw of `np.random.random()` for the medium-complexity coin, the
pattern index draw for `structural_variation_decoy`, and the substitution
randomness for whichever `character_substitution_decoy` call happens
(direct or as fallback). -/
structure GenRand where
  coin : ℚ
  patternIdx : ℕ
  csr : CSRand

/-- Embedding of `generate_decoy(target, complexity)` (`app.py`, lines
86-107).  An empty target returns the empty string; otherwise the strategy
is chosen from the complexity: at most 3 character substitution, 4-7 a
coin flip between the two strategies, 8 and above structural variation.
The similarity handed down is `1.0 - complexity / 20.0`. -/
def generate_decoy (target : List Char) (complexity : ℤ) (r : GenRand) :
    Option (List Char) :=
  if target = [] then some []
  else
    let similarity : ℚ := 1 - (complexity : ℚ) / 20
    if complexity ≤ 3 then
      character_substitution_decoy target similarity r.csr
    else if complexity ≤ 7 then
      if r.coin < 1/2 then character_substitution_decoy target similarity r.csr
      else structural_variation_decoy target similarity r.patternIdx r.csr
    else
      structural_variation_decoy target similarity r.patternIdx r.csr

/-- Do positions `i` of `a` and `j` of `b` hold the same character? -/
def matchAt (a b : List Char) (i j : ℕ) : Bool :=
  match a.get? i, b.get? j with
  | some x, some y => x = y
  | _, _ => false

/-- Length of the common suffix of `a[alo..i]` and `b[blo..j]` ending at
positions `i` and `j`.  This is the value `k = j2len.get(j-1, 0) + 1` that
`difflib.SequenceMatcher.find_longest_match` accumulates row by row; the
chain stops at the lower window bounds `alo`, `blo`. -/
def sufLen (a b : List Char) (alo blo : ℕ) : ℕ → ℕ → ℕ
  | 0, j => if matchAt a b 0 j then 1 else 0
  | i+1, 0 => if matchAt a b (i+1) 0 then 1 else 0
  | i+1, j+1 =>
    if matchAt a b (i+1) (j+1) then
      if alo ≤ i ∧ blo ≤ j then 1 + sufLen a b alo blo i j else 1
    else 0

/-- Embedding of `SequenceMatcher.find_longest_match(alo, ahi, blo, bhi)`
without junk (no `isjunk` argument is passed in `app.py`, and the autojunk
heuristic only activates for strings of length at least 200, far beyond any
input evaluated in this file).  CPython scans `i` ascending and, within a
row, the matching `j` ascending, updating the champion only on a strictly
longer match, so the first maximal block in that scan order wins.  Returns
`(besti, bestj, bestsize)`. -/
def find_longest_match (a b : List Char) (alo ahi blo bhi : ℕ) : ℕ × ℕ × ℕ :=
  (List.range' alo (ahi - alo)).foldl
    (fun best i =>
      (List.range' blo (bhi - blo)).foldl
        (fun best j =>
          let k := sufLen a b alo blo i j
          if best.2.2 < k then (i + 1 - k, j + 1 - k, k) else best)
        best)
    (alo, blo, 0)

/-- Total size of the matching blocks of
`SequenceMatcher.get_matching_blocks`: the recursion of CPython's
`matching_blocks` queue, summing the block sizes.  The fuel only makes the
recursion structural: every recursive call strictly shrinks the window
`(ahi - alo) + (bhi - blo)` (the found block is nonempty and inside the
window), so fuel `a.length + b.length + 1` never runs out. -/
def matchingTotalAux (a b : List Char) : ℕ → ℕ → ℕ → ℕ → ℕ → ℕ
  | 0, _, _, _, _ => 0
  | fuel+1, alo, ahi, blo, bhi =>
    match find_longest_match a b alo ahi blo bhi with
    | (i, j, k) =>
      if k = 0 then 0
      else k + matchingTotalAux a b fuel alo i blo j +
        matchingTotalAux a b fuel (i+k) ahi (j+k) bhi

def matchingTotal (a b : List Char) : ℕ :=
  matchingTotalAux a b (a.length + b.length + 1) 0 a.length 0 b.length

/-- Embedding of `calculate_similarity(decoy, target)` (`app.py`, lines
191-193): `SequenceMatcher(None, decoy, target).ratio()`, which is
`2.0 * M / (len(a) + len(b))` for `M` the total matched size, and `1.0`
when both strings are empty. -/
def calculate_similarity (decoy target : List Char) : ℚ :=
  if decoy.length + target.length = 0 then 1
  else 2 * (matchingTotal decoy target : ℚ) /
    ((decoy.length : ℚ) + (target.length : ℚ))

/-- Embedding of `evaluate_decoy(decoy, target)` (`app.py`, lines 195-209).
The classifier is the pair of module globals `model` and `vectorizer`;
`predict` is `some f` when both are loaded, in which case `f decoy` is
`model.predict_proba(vectorizer.transform([decoy]))[0][1]`, and `none`
when the model is unavailable, in which case the neutral default 0.5 is
used. -/
def evaluate_decoy (decoy target : List Char)
    (predict : Option (List Char → ℚ)) : ℚ :=
  let similarity := calculate_similarity decoy target
  let real_probability : ℚ :=
    match predict with
    | some f => f decoy
    | none => 1/2
  similarity * (1/2) + real_probability * (1/2)

/-- Outcome of an HTTP handler: a successful JSON response, a 400 client
error, or an uncaught Python exception propagating out of the handler. -/
inductive RouteResult (α : Type) where
  | ok : α → RouteResult α
  | badRequest : RouteResult α
  | raised : RouteResult α
deriving DecidableEq

/-- One entry of the `evaluations` list built by the `/evaluate` handler
(`app.py`, lines 326-338): the decoy with its rounded effectiveness and
similarity, and the rounded classifier probability when a model is
loaded. -/
structure EvalResult where
  decoy : List Char
  effectiveness : ℚ
  similarity : ℚ
  real_probability : Option ℚ
deriving DecidableEq

/-- The per-decoy result list of the `/evaluate` handler, in input order
(`app.py`, lines 321-338). -/
def evalResults (decoys : List (List Char)) (target : List Char)
    (predict : Option (List Char → ℚ)) : List EvalResult :=
  decoys.map (fun d =>
    { decoy := d
      effectiveness := pyRound2 (evaluate_decoy d target predict)
      similarity := pyRound2 (calculate_similarity d target)
      real_probability := predict.map (fun f => pyRound2 (f d)) })

/-- The comparison `results.sort(key=lambda x: x["effectiveness"], reverse=True)`
uses: `x` may stay before `y` exactly when `x` does not compare strictly
below `y` in the reversed order, i.e. when `y.effectiveness ≤ x.effectiveness`.
Python's sort is stable, so elements with equal keys keep their input
order; `List.mergeSort` with this relation has the same behavior. -/
def effGE (x y : EvalResult) : Bool :=
  y.effectiveness ≤ x.effectiveness

/-- Response of the `/evaluate` handler (`app.py`, lines 343-350). -/
structure EvalResponse where
  target : List Char
  evaluations : List EvalResult
  avg_effectiveness : ℚ
  avg_similarity : ℚ
deriving DecidableEq

/-- Embedding of the `/evaluate` handler `evaluate_decoys_endpoint`
(`app.py`, lines 307-352).  `target?` is `data.get("target")` (`none` when
the key is missing) and `decoys?` is `data.get("decoys", [])`; a missing
or empty target and a missing or empty decoys list are all falsy and
produce the 400 response of line 318.  (The same route is registered a
second time at line 354 by a leftover prototype handler; the claims and
the specification address this model-backed handler, the one registered
first.) -/
def evaluate_decoys_endpoint (target? : Option (List Char))
    (decoys? : Option (List (List Char)))
    (predict : Option (List Char → ℚ)) : RouteResult EvalResponse :=
  let target := target?.getD []
  let decoys := decoys?.getD []
  if target = [] ∨ decoys = [] then .badRequest
  else
    let results := (evalResults decoys target predict).mergeSort effGE
    .ok { target := target
          evaluations := results
          avg_effectiveness :=
            pyRound2 ((results.map (·.effectiveness)).sum / results.length)
          avg_similarity :=
            pyRound2 ((results.map (·.similarity)).sum / results.length) }

/-- Response of the `/generate` handler (`app.py`, lines 292-303), minus
the wall-clock `generation_time_ms` field. -/
structure GenResponse where
  decoys : List (List Char)
  target : List Char
  complexity : ℤ
  count : ℤ
  avg_effectiveness : ℚ
  max_effectiveness : ℚ
  min_effectiveness : ℚ

/-- Embedding of the `/generate` handler `generate_decoys` (`app.py`,
lines 237-305).  `complexity?` and `count?` are the request values
(`none` when missing, with defaults 5 and 10 from `data.get`); values
outside `[1,10]` and `[1,100]` are replaced by the defaults at lines
253-257.  `rand i` is the random state consumed by the `i`-th loop
iteration.  The database insert of lines 274-287 is a best-effort side
effect that never alters the response and is not modelled; the wall-clock
timing field is likewise omitted.  An exception from `generate_decoy`
(the invalid replacement template of pattern 7) aborts the handler. -/
def generate_decoys_route (target? : Option (List Char))
    (complexity? count? : Option ℤ) (predict : Option (List Char → ℚ))
    (rand : ℕ → GenRand) : RouteResult GenResponse :=
  let target := target?.getD []
  if target = [] then .badRequest
  else
    let c0 := complexity?.getD 5
    let complexity := if 1 ≤ c0 ∧ c0 ≤ 10 then c0 else 5
    let n0 := count?.getD 10
    let count := if 1 ≤ n0 ∧ n0 ≤ 100 then n0 else 10
    match (List.range count.toNat).mapM
        (fun i => generate_decoy target complexity (rand i)) with
    | none => .raised
    | some decoys =>
      let scores := decoys.map (fun d => evaluate_decoy d target predict)
      .ok { decoys := decoys
            target := target
            complexity := complexity
            count := count
            avg_effectiveness :=
              pyRound2 (if scores = [] then 0 else scores.sum / scores.length)
            max_effectiveness :=
              if scores = [] then 0 else pyRound2 (scores.max?.getD 0)
            min_effectiveness :=
              if scores = [] then 0 else pyRound2 (scores.min?.getD 0) }

/-- The count of positions where two strings hold different characters
(compared position by position over their common length). -/
def countDiff (xs ys : List Char) : ℕ :=
  (xs.zip ys).countP (fun p => p.1 ≠ p.2)

/-! Helper lemmas shared by the claim theorems below. -/

theorem length_pos_of_ne_nil {s : List Char} (hs : s ≠ []) : 1 ≤ s.length := by
  cases s
  · simp at hs
  · simp

/-- For any string, `num_to_modify` is at least 1 (the `max(1, _)`). -/
theorem numToModify_pos (len : ℕ) (sim : ℚ) :
    1 ≤ (numToModify len sim).toNat := by
  unfold numToModify
  rw [Int.max_def, Int.min_def]
  split_ifs <;> omega

/-- For a non-empty string, `num_to_modify` never exceeds the length, so
`np.random.choice` never raises. -/
theorem numToModify_le (len : ℕ) (sim : ℚ) (h : 1 ≤ len) :
    (numToModify len sim).toNat ≤ len := by
  unfold numToModify
  rw [Int.max_def, Int.min_def]
  split_ifs <;> omega

/-- Concrete evaluation: a length-3 string at similarity target 1/2 gets
`int((1 - 1/2) * 3) = int(1.5) = 1` modified position. -/
theorem numToModify_three_half : (numToModify 3 (1/2)).toNat = 1 := by
  simp [numToModify, pyInt]
  norm_num

/-- Concrete evaluation: `"kyber768"` at complexity 3 gets
`int((1 - 0.85) * 8) = int(1.2) = 1` modified position. -/
theorem numToModify_eight_c3 : (numToModify 8 (1 - (3:ℚ)/20)).toNat = 1 := by
  simp [numToModify, pyInt]
  norm_num

/-- Concrete evaluation: a length-3 string at similarity 17/20 gets
`max(1, int(0.45)) = 1` modified position. -/
theorem numToModify_three_1720 : (numToModify 3 (17/20)).toNat = 1 := by
  simp [numToModify, pyInt]
  norm_num

/-- Concrete evaluation: `"kyber768"` at similarity 1/2 gets 4 modified
positions. -/
theorem numToModify_eight_half : (numToModify 8 (1/2)).toNat = 4 := by
  simp [numToModify, pyInt]
  norm_num
  decide

/-- On the empty string `num_to_modify` is still 1 (`max(1, min(0, -1))`). -/
theorem numToModify_empty (sim : ℚ) : (numToModify 0 sim).toNat = 1 := by
  simp [numToModify, pyInt]

/-- On a non-empty target the sample always fits the population, so
`character_substitution_decoy` runs its substitution loop. -/
theorem charSub_eq_applySubs (s : List Char) (sim : ℚ) (r : CSRand)
    (hs : s ≠ []) :
    character_substitution_decoy s sim r =
      some (applySubs s (r.positions.zip r.picks)) := by
  unfold character_substitution_decoy
  rw [if_neg (by have := numToModify_le s.length sim (length_pos_of_ne_nil hs); omega)]

theorem foldl_set_length (g : ℕ × ℕ → Char) :
    ∀ (ps : List (ℕ × ℕ)) (chars : List Char),
      (ps.foldl (fun cs pr => cs.set pr.1 (g pr)) chars).length = chars.length
  | [], _ => rfl
  | p :: ps, chars => by
    simpa [List.length_set] using foldl_set_length g ps (chars.set p.1 (g p))

/-- The substitution loop writes characters in place and never changes the
length. -/
theorem applySubs_length (t : List Char) (ps : List (ℕ × ℕ)) :
    (applySubs t ps).length = t.length :=
  foldl_set_length (fun pr => substituteChar (t.getD pr.1 ' ') pr.2) ps t

theorem foldl_set_getD_ne (g : ℕ × ℕ → Char) (i : ℕ) (d : Char) :
    ∀ (ps : List (ℕ × ℕ)) (chars : List Char), (∀ pr ∈ ps, pr.1 ≠ i) →
      (ps.foldl (fun cs pr => cs.set pr.1 (g pr)) chars).getD i d = chars.getD i d
  | [], _, _ => rfl
  | p :: ps, chars, h => by
    have h1 : p.1 ≠ i := h p (List.mem_cons_self p ps)
    have h2 := foldl_set_getD_ne g i d ps (chars.set p.1 (g p))
      (fun pr hpr => h pr (List.mem_cons_of_mem p hpr))
    rw [List.foldl_cons, h2, List.getD, List.get?_eq_getElem?,
      List.getElem?_set_ne h1, List.getD, List.get?_eq_getElem?]

/-- Positions that the substitution loop never touches keep their original
character. -/
theorem applySubs_getD_ne (t : List Char) (ps : List (ℕ × ℕ)) (i : ℕ) (d : Char)
    (h : ∀ pr ∈ ps, pr.1 ≠ i) : (applySubs t ps).getD i d = t.getD i d :=
  foldl_set_getD_ne (fun pr => substituteChar (t.getD pr.1 ' ') pr.2) i d ps t h

theorem countDiff_self : ∀ (s : List Char), countDiff s s = 0
  | [] => rfl
  | c :: s => by
    simpa [countDiff, List.countP_cons] using countDiff_self s

theorem countDiff_set_le :
    ∀ (xs ys : List Char) (i : ℕ) (a : Char),
      countDiff (xs.set i a) ys ≤ countDiff xs ys + 1
  | [], ys, i, a => by simp [countDiff]
  | x :: xs, [], i, a => by
    cases i <;> simp [countDiff]
  | x :: xs, y :: ys, 0, a => by
    simp only [countDiff, List.set_cons_zero, List.zip_cons_cons, List.countP_cons]
    split_ifs <;> omega
  | x :: xs, y :: ys, i+1, a => by
    simp only [countDiff, List.set_cons_succ, List.zip_cons_cons, List.countP_cons]
    have := countDiff_set_le xs ys i a
    simp only [countDiff] at this
    split_ifs <;> omega

theorem countDiff_foldl_set_le (g : ℕ × ℕ → Char) (ys : List Char) :
    ∀ (ps : List (ℕ × ℕ)) (chars : List Char),
      countDiff (ps.foldl (fun cs pr => cs.set pr.1 (g pr)) chars) ys ≤
        countDiff chars ys + ps.length
  | [], chars => by simp
  | p :: ps, chars => by
    have h1 := countDiff_foldl_set_le g ys ps (chars.set p.1 (g p))
    have h2 := countDiff_set_le chars ys p.1 (g p)
    simp only [List.foldl_cons, List.length_cons]
    omega

/-- The substitution loop changes at most one character per loop
iteration. -/
theorem countDiff_applySubs_le (t ys : List Char) (ps : List (ℕ × ℕ)) :
    countDiff (applySubs t ps) ys ≤ countDiff t ys + ps.length :=
  countDiff_foldl_set_le (fun pr => substituteChar (t.getD pr.1 ' ') pr.2) ys ps t

/-- The sort relation of the `/evaluate` handler is transitive. -/
theorem effGE_trans (a b c : EvalResult) (h1 : effGE a b) (h2 : effGE b c) :
    effGE a c = true := by
  simp only [effGE, decide_eq_true_eq] at *
  exact le_trans h2 h1

/-- The sort relation of the `/evaluate` handler is total. -/
theorem effGE_total (a b : EvalResult) : (effGE a b || effGE b a) = true := by
  simp only [effGE, Bool.or_eq_true, decide_eq_true_eq]
  exact le_total b.effectiveness a.effectiveness

/-! The claim theorems. -/

/-- C1: for every decoy and target, the effectiveness score is
`0.5 * similarity(decoy, target) + 0.5 * p`, where `p` is the classifier
probability when a model and vectorizer are loaded, and `p = 0.5` (a
neutral default, no failure) when no model is available. -/
theorem effectiveness_formula (decoy target : List Char) (p : List Char → ℚ) :
    evaluate_decoy decoy target (some p) =
      1/2 * calculate_similarity decoy target + 1/2 * p decoy ∧
    evaluate_decoy decoy target none =
      1/2 * calculate_similarity decoy target + 1/2 * (1/2) := by
  constructor <;> · simp [evaluate_decoy]; ring

/-- C2 counterexample: the claim computes the modification count with
`round`, the code with `int` truncation, and the two disagree on the
string `"kkk"` at similarity target 1/2: `(1 - 1/2) * 3 = 1.5`, which the
claim rounds to 2 but the code truncates to 1.  A valid draw of the random
source (position 0, letter draw 16, i.e. `'q'`) therefore substitutes at
exactly one position and yields `"qkk"`, which differs from the input at 1
position, not the 2 the claim demands.  (All floats involved are exactly
representable, so the rational model agrees with the Python floats.) -/
theorem charSub_count_cex :
    specNumToModify 3 (1/2) = 2 ∧
    (numToModify 3 (1/2)).toNat = 1 ∧
    validCSRand 3 (1/2) ⟨[0], [16]⟩ ∧
    character_substitution_decoy ("kkk".toList) (1/2) ⟨[0], [16]⟩ =
      some ("qkk".toList) ∧
    countDiff ("qkk".toList) ("kkk".toList) = 1 := by
  refine ⟨?_, numToModify_three_half, ?_, ?_, by decide⟩
  · simp only [specNumToModify, pyRoundHalfEven]
    norm_num
  · unfold validCSRand
    rw [numToModify_three_half]
    exact ⟨by decide, by decide, by decide, by decide⟩
  · unfold character_substitution_decoy
    have h : ("kkk".toList).length = 3 := rfl
    rw [h, numToModify_three_half]
    decide

/-- C2 amended: for every non-empty string and every valid draw of the
random source, `character_substitution_decoy` substitutes at exactly
`numToModify = max(1, min(int((1 - similarityTarget) * len(s)), len(s) - 1))`
pairwise-distinct positions — `int` truncation, not `round` — leaving every
other position unchanged and preserving the length. -/
theorem charSub_modifies_count (s : List Char) (sim : ℚ) (r : CSRand)
    (hs : s ≠ []) (hr : validCSRand s.length sim r) :
    ∃ out, character_substitution_decoy s sim r = some out ∧
      out.length = s.length ∧
      r.positions.length = (numToModify s.length sim).toNat ∧
      r.positions.Nodup ∧
      ∀ i, i < s.length → i ∉ r.positions → out.getD i ' ' = s.getD i ' ' := by
  refine ⟨applySubs s (r.positions.zip r.picks), charSub_eq_applySubs s sim r hs,
    applySubs_length _ _, hr.1, hr.2.1, ?_⟩
  intro i hi hni
  refine applySubs_getD_ne _ _ i ' ' (fun pr hpr => ?_)
  obtain ⟨p1, p2⟩ := pr
  have hmem := (List.of_mem_zip hpr).1
  exact fun h => hni (h ▸ hmem)

/-- C2 witness: the amended theorem at `"kkk"`, similarity target 1/2, and
the draw substituting position 0. -/
theorem charSub_modifies_count_witness :
    ∃ out, character_substitution_decoy ("kkk".toList) (1/2) ⟨[0], [16]⟩ = some out ∧
      out.length = ("kkk".toList).length ∧
      (CSRand.mk [0] [16]).positions.length =
        (numToModify ("kkk".toList).length (1/2)).toNat ∧
      (CSRand.mk [0] [16]).positions.Nodup ∧
      ∀ i, i < ("kkk".toList).length → i ∉ (CSRand.mk [0] [16]).positions →
        out.getD i ' ' = ("kkk".toList).getD i ' ' :=
  charSub_modifies_count ("kkk".toList) (1/2) ⟨[0], [16]⟩ (by decide)
    (by
      unfold validCSRand
      have h : ("kkk".toList).length = 3 := rfl
      rw [h, numToModify_three_half]
      exact ⟨by decide, by decide, by decide, by decide⟩)

/-- C3: for every non-empty target and complexity in `[1,10]`,
`generate_decoy` hands the similarity `1 - complexity/20` to the chosen
strategy, and the strategy is: complexity at most 3, always character
substitution; complexity 4 to 7, character substitution exactly when the
uniform `[0,1)` draw falls below 1/2 (probability one half), structural
variation otherwise; complexity at least 8, always structural
variation. -/
theorem generate_strategy (t : List Char) (c : ℤ) (r : GenRand)
    (ht : t ≠ []) (h1 : 1 ≤ c) (h10 : c ≤ 10) :
    (c ≤ 3 → generate_decoy t c r =
      character_substitution_decoy t (1 - (c:ℚ)/20) r.csr) ∧
    (4 ≤ c → c ≤ 7 → generate_decoy t c r =
      (if r.coin < 1/2 then
        character_substitution_decoy t (1 - (c:ℚ)/20) r.csr
      else structural_variation_decoy t (1 - (c:ℚ)/20) r.patternIdx r.csr)) ∧
    (8 ≤ c → generate_decoy t c r =
      structural_variation_decoy t (1 - (c:ℚ)/20) r.patternIdx r.csr) := by
  simp only [generate_decoy, if_neg ht]
  refine ⟨fun h3 => by rw [if_pos h3], fun h4 h7 => ?_, fun h8 => ?_⟩
  · rw [if_neg (by omega), if_pos h7]
  · rw [if_neg (by omega), if_neg (by omega)]

/-- C3 witness: the strategy theorem at target `"kyber768"`, complexity 2,
and a concrete random state. -/
theorem generate_strategy_witness :
    ((2:ℤ) ≤ 3 → generate_decoy ("kyber768".toList) 2 ⟨0, 0, ⟨[0], [10]⟩⟩ =
      character_substitution_decoy ("kyber768".toList) (1 - ((2:ℤ):ℚ)/20)
        (GenRand.mk 0 0 ⟨[0], [10]⟩).csr) ∧
    (4 ≤ (2:ℤ) → (2:ℤ) ≤ 7 →
      generate_decoy ("kyber768".toList) 2 ⟨0, 0, ⟨[0], [10]⟩⟩ =
      (if (GenRand.mk 0 0 ⟨[0], [10]⟩).coin < 1/2 then
        character_substitution_decoy ("kyber768".toList) (1 - ((2:ℤ):ℚ)/20)
          (GenRand.mk 0 0 ⟨[0], [10]⟩).csr
      else structural_variation_decoy ("kyber768".toList) (1 - ((2:ℤ):ℚ)/20)
        (GenRand.mk 0 0 ⟨[0], [10]⟩).patternIdx (GenRand.mk 0 0 ⟨[0], [10]⟩).csr)) ∧
    (8 ≤ (2:ℤ) → generate_decoy ("kyber768".toList) 2 ⟨0, 0, ⟨[0], [10]⟩⟩ =
      structural_variation_decoy ("kyber768".toList) (1 - ((2:ℤ):ℚ)/20)
        (GenRand.mk 0 0 ⟨[0], [10]⟩).patternIdx (GenRand.mk 0 0 ⟨[0], [10]⟩).csr) :=
  generate_strategy ("kyber768".toList) 2 ⟨0, 0, ⟨[0], [10]⟩⟩
    (by decide) (by decide) (by decide)

/-- C4 counterexample: on target `"kkk"` the first rewrite rule
(`(\w+)(\d+)` separator insertion) is a no-op — there is no digit — so the
code falls back to character substitution, and the fallback draw
(position 0, letter draw 10, i.e. `'k'` again) hands back the unmodified
target: `structural_variation_decoy` returns `"kkk"` itself on a non-empty
target under a valid random draw. -/
theorem structVar_returns_target_cex :
    structural_variation_decoy ("kkk".toList) (17/20) 0 ⟨[0], [10]⟩ =
      some ("kkk".toList) ∧
    validCSRand ("kkk".toList).length (17/20) ⟨[0], [10]⟩ := by
  constructor
  · unfold structural_variation_decoy character_substitution_decoy
    have h : ("kkk".toList).length = 3 := rfl
    rw [h, numToModify_three_1720]
    decide
  · unfold validCSRand
    have h : ("kkk".toList).length = 3 := rfl
    rw [h, numToModify_three_1720]
    exact ⟨by decide, by decide, by decide, by decide⟩

/-- C4 amended: whenever `structural_variation_decoy` returns a string, it
is either different from the target, or the chosen rewrite rule was a
no-op on the target — the rewrite itself never hands back the unchanged
input; the target can only come back through the character-substitution
fallback (which may reproduce it, as the counterexample shows). -/
theorem structVar_target_only_from_fallback (t : List Char) (sim : ℚ)
    (idx : ℕ) (r : CSRand) (out : List Char)
    (h : structural_variation_decoy t sim idx r = some out) :
    out ≠ t ∨ applyPattern (idx % 8) t = some t := by
  unfold structural_variation_decoy at h
  obtain ⟨result, hp, hf⟩ := Option.bind_eq_some.mp h
  by_cases hrt : result = t
  · right
    rw [hp, hrt]
  · left
    rw [if_neg hrt] at hf
    rw [← Option.some.inj hf]
    exact hrt

/-- C4 witness: the amended theorem at target `"kkk"` with rule 2
(`-prime` suffix), which returns `"kkk-prime"`. -/
theorem structVar_target_only_from_fallback_witness :
    ("kkk-prime".toList) ≠ ("kkk".toList) ∨
    applyPattern (2 % 8) ("kkk".toList) = some ("kkk".toList) :=
  structVar_target_only_from_fallback ("kkk".toList) (17/20) 2 ⟨[], []⟩
    ("kkk-prime".toList)
    (by unfold structural_variation_decoy; decide)

/-- C5: the generate operation never rejects out-of-range numeric
parameters: any complexity outside `[1,10]` is replaced by the default 5
and any count outside `[1,100]` by the default 10 before use, so the call
behaves identically to a call with the default — in particular
`complexity = 999` behaves as `complexity = 5` and `count = -1` as
`count = 10` (the witness). -/
theorem generate_clamps (target? : Option (List Char))
    (complexity? count? : Option ℤ) (predict : Option (List Char → ℚ))
    (rand : ℕ → GenRand) (c n : ℤ)
    (hc : ¬(1 ≤ c ∧ c ≤ 10)) (hn : ¬(1 ≤ n ∧ n ≤ 100)) :
    generate_decoys_route target? (some c) count? predict rand =
      generate_decoys_route target? (some 5) count? predict rand ∧
    generate_decoys_route target? complexity? (some n) predict rand =
      generate_decoys_route target? complexity? (some 10) predict rand := by
  constructor
  · unfold generate_decoys_route
    simp only [Option.getD_some]
    rw [if_neg hc, if_pos (show (1:ℤ) ≤ 5 ∧ (5:ℤ) ≤ 10 by norm_num)]
  · unfold generate_decoys_route
    simp only [Option.getD_some]
    rw [if_neg hn, if_pos (show (1:ℤ) ≤ 10 ∧ (10:ℤ) ≤ 100 by norm_num)]

/-- C5 witness: clamping at the claim's concrete inputs, complexity 999
and count -1, on target `"kyber768"`. -/
theorem generate_clamps_witness :
    generate_decoys_route (some ("kyber768".toList)) (some 999) none none
        (fun _ => ⟨0, 0, ⟨[], []⟩⟩) =
      generate_decoys_route (some ("kyber768".toList)) (some 5) none none
        (fun _ => ⟨0, 0, ⟨[], []⟩⟩) ∧
    generate_decoys_route (some ("kyber768".toList)) none (some (-1)) none
        (fun _ => ⟨0, 0, ⟨[], []⟩⟩) =
      generate_decoys_route (some ("kyber768".toList)) none (some 10) none
        (fun _ => ⟨0, 0, ⟨[], []⟩⟩) :=
  generate_clamps (some ("kyber768".toList)) none none none
    (fun _ => ⟨0, 0, ⟨[], []⟩⟩) 999 (-1) (by decide) (by decide)

/-- C6: whenever the `/evaluate` handler succeeds, the returned evaluations
are the per-decoy results sorted in descending order of their effectiveness
scores, the sort is a permutation of the input-order results, and it is
stable: results with equal effectiveness keep their input order (stated as
the filter at every effectiveness value being preserved).  The
effectiveness each result carries — and the handler sorts by — is the
rounded (2-decimal) score the response reports, so results with distinct
reported scores come out strictly descending. -/
theorem evaluate_sorted (target? : Option (List Char))
    (decoys? : Option (List (List Char))) (predict : Option (List Char → ℚ))
    (ht : target?.getD [] ≠ []) (hd : decoys?.getD [] ≠ []) :
    ∃ resp, evaluate_decoys_endpoint target? decoys? predict = .ok resp ∧
      resp.evaluations.Pairwise
        (fun x y => y.effectiveness ≤ x.effectiveness) ∧
      resp.evaluations.Perm
        (evalResults (decoys?.getD []) (target?.getD []) predict) ∧
      ∀ c : ℚ,
        resp.evaluations.filter (fun x => x.effectiveness == c) =
          (evalResults (decoys?.getD []) (target?.getD []) predict).filter
            (fun x => x.effectiveness == c) := by
  unfold evaluate_decoys_endpoint
  rw [if_neg (by rw [not_or]; exact ⟨ht, hd⟩)]
  refine ⟨_, rfl, ?_, ?_, ?_⟩
  · exact (List.sorted_mergeSort effGE_trans effGE_total _).imp
      (fun h => by simpa [effGE, decide_eq_true_eq] using h)
  · exact List.mergeSort_perm _ effGE
  · intro c
    set R := evalResults (decoys?.getD []) (target?.getD []) predict with hR
    set p : EvalResult → Bool := fun x => x.effectiveness == c with hp
    have hF_mem : ∀ x ∈ R.filter p, x.effectiveness = c := by
      intro x hx
      have := List.of_mem_filter hx
      simpa [hp, beq_iff_eq] using this
    have hF_pw : (R.filter p).Pairwise (fun a b => effGE a b = true) := by
      refine List.pairwise_of_forall_mem_list (fun a ha b hb => ?_)
      simp only [effGE, decide_eq_true_eq]
      rw [hF_mem a ha, hF_mem b hb]
    have hsub : (R.filter p).Sublist (R.mergeSort effGE) :=
      List.sublist_mergeSort effGE_trans effGE_total hF_pw (List.filter_sublist R)
    have hsub2 : (R.filter p).Sublist ((R.mergeSort effGE).filter p) := by
      have := List.Sublist.filter p hsub
      rwa [List.filter_eq_self.mpr
        (fun a (ha : a ∈ List.filter p R) => List.of_mem_filter ha)] at this
    have hperm : ((R.mergeSort effGE).filter p).Perm (R.filter p) :=
      List.Perm.filter p (List.mergeSort_perm R effGE)
    exact (hsub2.eq_of_length hperm.length_eq.symm).symm

/-- C6 witness: the sorting theorem at target `"ab"` with decoys
`["ab", "xy"]` and no model. -/
theorem evaluate_sorted_witness :
    ∃ resp, evaluate_decoys_endpoint (some ("ab".toList))
        (some [("ab".toList), ("xy".toList)]) none = .ok resp ∧
      resp.evaluations.Pairwise
        (fun x y => y.effectiveness ≤ x.effectiveness) ∧
      resp.evaluations.Perm
        (evalResults ((some [("ab".toList), ("xy".toList)] :
            Option (List (List Char))).getD [])
          ((some ("ab".toList) : Option (List Char)).getD []) none) ∧
      ∀ c : ℚ,
        resp.evaluations.filter (fun x => x.effectiveness == c) =
          (evalResults ((some [("ab".toList), ("xy".toList)] :
              Option (List (List Char))).getD [])
            ((some ("ab".toList) : Option (List Char)).getD []) none).filter
            (fun x => x.effectiveness == c) :=
  evaluate_sorted (some ("ab".toList)) (some [("ab".toList), ("xy".toList)])
    none (by decide) (by decide)

/-- C7 counterexample: at target `"kyber768"` and complexity 3 the code
substitutes at exactly one position, but the replacement letter for a
character outside the homoglyph table is drawn from the full alphabet and
can equal the original: drawing position 0 and letter 10 (`'k'`) returns
`"kyber768"` itself, differing from the target in 0 positions — the
claim's lower bound of 1 differing position fails. -/
theorem generate_kyber_eq_target_cex :
    generate_decoy ("kyber768".toList) 3 ⟨0, 0, ⟨[0], [10]⟩⟩ =
      some ("kyber768".toList) ∧
    validCSRand ("kyber768".toList).length (1 - (3:ℚ)/20) ⟨[0], [10]⟩ := by
  constructor
  · simp only [generate_decoy, Int.cast_ofNat]
    rw [if_neg (by decide), if_pos (by decide)]
    unfold character_substitution_decoy
    have h : ("kyber768".toList).length = 8 := rfl
    rw [h, numToModify_eight_c3]
    decide
  · unfold validCSRand
    have h : ("kyber768".toList).length = 8 := rfl
    rw [h, numToModify_eight_c3]
    exact ⟨by decide, by decide, by decide, by decide⟩

/-- C7 amended: at target `"kyber768"` and complexity 3, for every valid
draw of the random source the decoy has length 8 and differs from the
target in at most `len - 1 = 7` positions (indeed at most 1, the number of
substituted positions); the decoy can also equal the target, so the
claimed lower bound of 1 differing position does not hold. -/
theorem generate_kyber_diff_le (r : GenRand)
    (hr : validCSRand ("kyber768".toList).length (1 - (3:ℚ)/20) r.csr) :
    ∃ out, generate_decoy ("kyber768".toList) 3 r = some out ∧
      out.length = 8 ∧ countDiff out ("kyber768".toList) ≤ 7 := by
  refine ⟨applySubs ("kyber768".toList) (r.csr.positions.zip r.csr.picks),
    ?_, ?_, ?_⟩
  · simp only [generate_decoy, Int.cast_ofNat]
    rw [if_neg (by decide), if_pos (by decide)]
    exact charSub_eq_applySubs _ _ _ (by decide)
  · exact (applySubs_length _ _).trans rfl
  · have h1 := countDiff_applySubs_le ("kyber768".toList) ("kyber768".toList)
      (r.csr.positions.zip r.csr.picks)
    have h2 := countDiff_self ("kyber768".toList)
    have h3 : (r.csr.positions.zip r.csr.picks).length ≤
        r.csr.positions.length := by
      rw [List.length_zip]
      omega
    have h4 : r.csr.positions.length = 1 := by
      have := hr.1
      rwa [show ("kyber768".toList).length = 8 from rfl,
        numToModify_eight_c3] at this
    omega

/-- C7 witness: the amended theorem at the concrete draw of the
counterexample. -/
theorem generate_kyber_diff_le_witness :
    ∃ out, generate_decoy ("kyber768".toList) 3 ⟨0, 0, ⟨[0], [10]⟩⟩ = some out ∧
      out.length = 8 ∧ countDiff out ("kyber768".toList) ≤ 7 :=
  generate_kyber_diff_le ⟨0, 0, ⟨[0], [10]⟩⟩
    (by
      unfold validCSRand
      have h : ("kyber768".toList).length = 8 := rfl
      rw [h, numToModify_eight_c3]
      exact ⟨by decide, by decide, by decide, by decide⟩)

/-- C8 counterexample: on the empty string the code does not return the
empty string — `num_to_modify` is still `max(1, min(0, -1)) = 1`, and
`np.random.choice(0, size=1, replace=False)` raises `ValueError`
(modelled as `none`), so the call raises instead of returning `""`. -/
theorem charSub_empty_raises :
    character_substitution_decoy [] (7/10) ⟨[], []⟩ = none := by
  unfold character_substitution_decoy
  rw [if_pos]
  have h : ([] : List Char).length = 0 := rfl
  rw [h, numToModify_empty]
  omega

/-- C8 amended: `character_substitution_decoy` raises exactly on the empty
input (where `np.random.choice` is asked for one sample from an empty
population); on every non-empty input, and under every draw of the random
source, it returns a string without error. -/
theorem charSub_none_iff (s : List Char) (sim : ℚ) (r : CSRand) :
    character_substitution_decoy s sim r = none ↔ s = [] := by
  unfold character_substitution_decoy
  by_cases hs : s = []
  · subst hs
    rw [if_pos]
    · simp
    · have h : ([] : List Char).length = 0 := rfl
      rw [h, numToModify_empty]
      omega
  · rw [if_neg (by
      have := numToModify_le s.length sim (length_pos_of_ne_nil hs)
      omega)]
    simp [hs]

/-- C9: the `/evaluate` handler returns a client error, without attempting
any per-decoy evaluation or aggregate metric, whenever the decoys list is
missing or empty or the target is missing (or empty, which the handler's
falsiness test treats the same way). -/
theorem evaluate_rejects_missing (target? : Option (List Char))
    (decoys? : Option (List (List Char))) (predict : Option (List Char → ℚ)) :
    evaluate_decoys_endpoint target? none predict = .badRequest ∧
    evaluate_decoys_endpoint target? (some []) predict = .badRequest ∧
    evaluate_decoys_endpoint none decoys? predict = .badRequest ∧
    evaluate_decoys_endpoint (some []) decoys? predict = .badRequest := by
  unfold evaluate_decoys_endpoint
  refine ⟨?_, ?_, ?_, ?_⟩ <;> simp

/-- C10: on every non-empty input and every draw of the random source,
`character_substitution_decoy` returns a string of exactly the input's
length — it replaces characters in place and never inserts or deletes. -/
theorem charSub_preserves_length (s : List Char) (sim : ℚ) (r : CSRand)
    (out : List Char) (hs : s ≠ [])
    (h : character_substitution_decoy s sim r = some out) :
    out.length = s.length := by
  rw [charSub_eq_applySubs s sim r hs] at h
  rw [← Option.some.inj h]
  exact applySubs_length _ _

/-- C10 witness: length preservation at `"kyber768"`, similarity 1/2, and
the draw substituting position 0 by `'a'`. -/
theorem charSub_preserves_length_witness :
    ("ayber768".toList).length = ("kyber768".toList).length :=
  charSub_preserves_length ("kyber768".toList) (1/2) ⟨[0], [0]⟩
    ("ayber768".toList) (by decide)
    (by
      unfold character_substitution_decoy
      have h : ("kyber768".toList).length = 8 := rfl
      rw [h, numToModify_eight_half]
      decide)

end PQCD
